import Mathlib

set_option maxHeartbeats 1000000
set_option maxRecDepth 4000

/-!
Verification of the Tana export parsing and transformation engine.

The Python modules `src/lib/tana_parser.py`, `src/bin/tana_outline.py`,
`src/lib/tana_importer.py` and `src/lib/tana_json_parser.py` are embedded
shallowly: every definition below mirrors one Python function, with Python
dicts modelled as association lists that keep Python's dict semantics
(first-insertion key order, last-write-wins values), optional dict keys as
`Option`, and file-system effects abstracted into explicit result values
and effect traces.
-/

namespace TanaChat

/-- The property bag of a document: the `props` keys the engine reads
(`name`, `description`, `_docType`, `_metaNodeId`, `created`).  A missing
key is `none`; Python `props.get(k, default)` is `Option.getD`. -/
structure Props where
  name : Option String := none
  description : Option String := none
  docType : Option String := none
  metaNodeId : Option String := none
  created : Option Int := none
deriving Repr, DecidableEq

/-- A document as indexed by `TanaParser.__init__` and
`TanaOutlineGenerator.__init__`: the dict comprehension
`{doc['id']: doc for doc in data['docs']}` requires `id` to be present;
`parentId` and `props` are optional. -/
structure PDoc where
  id : String
  parentId : Option String := none
  props : Props := {}
deriving Repr, DecidableEq

namespace TanaParser

/-- One step of a Python dict comprehension `{doc['id']: doc ...}`:
assigning to an existing key keeps its position and replaces its value,
a new key is appended. -/
def upsertDoc (acc : List PDoc) (d : PDoc) : List PDoc :=
  if acc.any (fun x => x.id == d.id) then
    acc.map (fun x => if x.id == d.id then d else x)
  else acc ++ [d]

/-- Models `self.docs = {doc['id']: doc for doc in self.data.get('docs', [])}`. -/
def buildDocs (docs : List PDoc) : List PDoc :=
  docs.foldl upsertDoc []

/-- Models `TanaParser.get_node` (the `nodes_index` holds the same `id`,
`parentId`, `props` fields as the raw document). -/
def get_node (docs : List PDoc) (node_id : String) : Option PDoc :=
  (buildDocs docs).find? (fun d => d.id == node_id)

/-- Models `sort_key` inside `TanaParser.get_children`:
`created = child['props'].get('created', 0); return created if created
else 0` — a missing or falsy (zero) timestamp counts as 0. -/
def sort_key (docs : List PDoc) (child_id : String) : Int :=
  match get_node docs child_id with
  | some child =>
      let created := child.props.created.getD 0
      if created == 0 then 0 else created
  | none => 0

/-- Models `TanaParser.get_children`: scan every indexed document for
`doc.get('parentId') == node_id`, then `children.sort(key=sort_key)`.
Python `list.sort` is a stable ascending sort by the key, which is exactly
`List.insertionSort` with the key-based relation (stable sorts agree). -/
def get_children (docs : List PDoc) (node_id : String) : List String :=
  let children :=
    ((buildDocs docs).filter (fun d => d.parentId == some node_id)).map (fun d => d.id)
  children.insertionSort (fun a b => sort_key docs a ≤ sort_key docs b)

end TanaParser

namespace TanaOutlineGenerator

/-- Models `sort_key` inside `TanaOutlineGenerator.get_children`
(src/bin/tana_outline.py): reads `doc.get('props', {}).get('created', 0)`
from the docs dict directly. -/
def sort_key (docs : List PDoc) (doc_id : String) : Int :=
  match (TanaParser.buildDocs docs).find? (fun d => d.id == doc_id) with
  | some doc =>
      let created := doc.props.created.getD 0
      if created == 0 then 0 else created
  | none => 0

/-- Models `TanaOutlineGenerator.get_children`: same scan of the docs dict for
matching `parentId` and the same stable sort by creation time. -/
def get_children (docs : List PDoc) (node_id : String) : List String :=
  let children :=
    ((TanaParser.buildDocs docs).filter (fun d => d.parentId == some node_id)).map (fun d => d.id)
  children.insertionSort (fun a b => sort_key docs a ≤ sort_key docs b)

end TanaOutlineGenerator

namespace TanaParser

/-- Models `TanaParser.get_tree_depth`, with the implicit Python call stack made
explicit as fuel: each nested call consumes one unit, `none` means the
recursion is still running after `fuel` nested calls (Python would stack
these frames; there is no visited set and no depth cap in this function).
`children.mapM` is the `for child_id in children` loop collecting
`child_depth` values whose max is taken. -/
def get_tree_depth : Nat → List PDoc → String → Option Nat
  | 0, _, _ => none
  | fuel + 1, docs, node_id =>
    let children := get_children docs node_id
    if children.isEmpty then some 0
    else do
      let ds ← children.mapM (get_tree_depth fuel docs)
      return ds.foldl max 0 + 1

end TanaParser

namespace TanaOutlineGenerator

/-- Models `TanaOutlineGenerator._calculate_depth` (src/bin/tana_outline.py):
`processed` is `self.processed_nodes`, mutated by the traversal, so it is
threaded through the child calls; the guard
`node_id in processed or current_depth > 50` returns immediately.  Fuel
again counts nested Python calls. -/
def calculate_depth : Nat → List PDoc → List String → String → Nat → Option (Nat × List String)
  | 0, _, _, _, _ => none
  | fuel + 1, docs, processed, node_id, current_depth =>
    if node_id ∈ processed ∨ current_depth > 50 then some (current_depth, processed)
    else
      let processed' := node_id :: processed
      let children := get_children docs node_id
      if children.isEmpty then some (current_depth, processed')
      else
        children.foldlM
          (fun acc child_id =>
            (calculate_depth fuel docs acc.2 child_id (current_depth + 1)).map
              (fun r => (max acc.1 r.1, r.2)))
          (current_depth, processed')
  termination_by fuel => fuel

end TanaOutlineGenerator

/-- A two-node parent cycle: `a`'s parent is `b` and `b`'s parent is `a`,
so `get_children "a" = ["b"]` and `get_children "b" = ["a"]`. -/
def cycleDocs : List PDoc :=
  [⟨"a", some "b", {}⟩, ⟨"b", some "a", {}⟩]

namespace TanaParser

/-- Models `TanaParser.get_parent`: look the node up in the index and return its
`parentId` (`None` when the node is unknown). -/
def get_parent (docs : List PDoc) (node_id : String) : Option String :=
  match get_node docs node_id with
  | some node => node.parentId
  | none => none

/-- Every `parentId` recorded in the index; together with the start node
this is the finite pool of ids the `get_path` loop can ever append. -/
def parentIds (docs : List PDoc) : List String :=
  (buildDocs docs).filterMap (fun d => d.parentId)

/-- The `while current and current not in path` loop of
`TanaParser.get_path` (`current and ...` is Python truthiness: `None` or
the empty string ends the loop, as does an id already on the path).  Fuel
counts loop iterations; `none` means the fuel ran out while the loop
still wanted to continue — the pigeonhole argument below shows the fuel
chosen in `get_path` never does. -/
def get_path_loop (docs : List PDoc) :
    Nat → List String → Option String → Option (List String)
  | _, path, none => some path
  | 0, path, some c => if c = "" ∨ c ∈ path then some path else none
  | fuel + 1, path, some c =>
      if c = "" ∨ c ∈ path then some path
      else get_path_loop docs fuel (path ++ [c]) (get_parent docs c)

/-- Models `TanaParser.get_path`: run the loop and return the reversed path.
The fuel is one more than the number of distinct ids available. -/
def get_path (docs : List PDoc) (node_id : String) : Option (List String) :=
  (get_path_loop docs ((node_id :: parentIds docs).dedup.length + 1) [] (some node_id)).map
    List.reverse

end TanaParser

/-- Python `str.startswith(p)`, computed on the character list (the
built-in `String.startsWith` does not reduce in the kernel). -/
def strStartsWith (s p : String) : Bool :=
  p.data.isPrefixOf s.data

/-- Python `str.lower()` (the names in this codebase are ASCII, where
`Char.toLower` agrees with Python). -/
def strToLower (s : String) : String :=
  String.mk (s.data.map Char.toLower)

/-- Python `str.replace(' ', '-')`. -/
def replaceSpaces (s : String) : String :=
  String.mk (s.data.map (fun c => if c == ' ' then '-' else c))

/-- Lexicographic code-point comparison, Python's `sorted` order for
strings (computed on character lists so that it reduces). -/
def charListLe : List Char → List Char → Bool
  | [], _ => true
  | _ :: _, [] => false
  | a :: as, b :: bs => if a < b then true else if b < a then false else charListLe as bs

/-- Models `a <= b` on strings as Python compares them. -/
def strLe (a b : String) : Bool :=
  charListLe a.data b.data

/-- A supertag reference `{id/uid, name}` inside a document's `supertags`
array (Tana Intermediate Format style). -/
structure TagRef where
  id : Option String := none
  uid : Option String := none
  name : Option String := none
deriving Repr, DecidableEq

mutual
/-- A raw export document as consumed by `TanaImporter`: `id`/`uid` and a
top-level `name` may each be present or absent, `props` is the property
bag, `supertags` is the optional legacy array, and `children` holds either
id strings (export format) or embedded documents (nested format). -/
inductive Node where
  | doc (id uid parentId name : Option String) (props : Props)
        (supertags : Option (List TagRef)) (children : NodeList)
  | ref (id : String)
deriving Repr
/-- A children list: its items are documents or id strings. -/
inductive NodeList where
  | nil
  | cons (n : Node) (rest : NodeList)
deriving Repr
end

/-- Build a `NodeList` from a literal list. -/
def NodeList.ofList : List Node → NodeList
  | [] => .nil
  | n :: rest => .cons n (NodeList.ofList rest)

/-- The shallow item list of a `NodeList` (no descent into documents). -/
def NodeList.toList : NodeList → List Node
  | .nil => []
  | .cons n rest => n :: rest.toList

/-- Python truthiness of a children list: empty is falsy. -/
def NodeList.isEmpty : NodeList → Bool
  | .nil => true
  | .cons _ _ => false

/-- One `user_defined` table value of the KeyTags registry. -/
structure KeyTagEntry where
  name : Option String := none
  node_id : Option String := none
deriving Repr, DecidableEq

/-- The KeyTags registry as read by the importer: `user_defined` is keyed
by the tag's defining node id (see `keytags_manager.add_specific_keytags`,
which stores `tags_to_add[tag_id] = {...}`). -/
structure KeyTags where
  user_defined : List (String × KeyTagEntry) := []
  total_supertags : Nat := 0
deriving Repr, DecidableEq

/-- The parsed top-level JSON object: which of `nodes` / `docs` is present
decides which list each importer entry point scans. -/
structure TanaData where
  docs : Option NodeList := none
  nodes : Option NodeList := none
deriving Repr

/-- One node summary appended to `nodes_by_supertag[tag]` (lines 269-276
and 296-303 of tana_importer.py). -/
structure Entry where
  name : String
  node_id : String
  description : String
  created : Option Int
  children : NodeList
  path : Option String
deriving Repr

namespace TanaImporter

/-- Python dict assignment `d[k] = v` on a string-keyed dict: replace the
value in place, or append a new key. -/
def upsertStr (l : List (String × String)) (k v : String) : List (String × String) :=
  if l.any (fun p => p.1 == k) then l.map (fun p => if p.1 == k then (k, v) else p)
  else l ++ [(k, v)]

/-- Lines 199-204 of `extract_nodes_by_supertag`: map each user-defined
keytag's name to `tag_data.get('node_id', '')`, skipping empty names. -/
def target_supertags (kt : KeyTags) : List (String × String) :=
  kt.user_defined.foldl
    (fun acc p =>
      let tag_name := p.2.name.getD ""
      if tag_name == "" then acc else upsertStr acc tag_name (p.2.node_id.getD ""))
    []

/-- Models `doc_lookup = {doc.get('id'): doc for doc in docs}` followed by
`doc_lookup.get(child_id)`: the stored value is the last document carrying
the id. -/
def doc_lookup_get (docs : List Node) (cid : String) : Option Node :=
  (docs.filter (fun n => match n with
    | .doc i _ _ _ _ _ _ => i == some cid
    | .ref _ => false)).getLast?

/-- Whether every top-level item is a dict; a string in `docs` makes the
`doc_lookup` comprehension raise `AttributeError`. -/
def docsAllDicts (docs : List Node) : Bool :=
  docs.all (fun n => match n with
    | .doc _ _ _ _ _ _ _ => true
    | .ref _ => false)

/-- Dict assignment for `meta_node_to_supertag` (keys are `doc.get('id')`,
which may be `None`). -/
def upsertMeta (l : List (Option String × String)) (k : Option String) (v : String) :
    List (Option String × String) :=
  if l.any (fun p => p.1 == k) then l.map (fun p => if p.1 == k then (k, v) else p)
  else l ++ [(k, v)]

/-- Lines 237-243: the grandchild loop.  A dict where an id string is
expected raises `TypeError` in Python (`grandchild_id in set` hashes its
argument); that surfaces as `Except.error`. -/
def metaGrandLoop (targets : List (String × String)) (doc_id : Option String)
    (acc : List (Option String × String)) :
    List Node → Except String (List (Option String × String))
  | [] => .ok acc
  | .doc _ _ _ _ _ _ _ :: _ => .error "TypeError: unhashable type: dict"
  | .ref gid :: rest =>
      if (targets.map (fun p => p.2)).contains gid then
        match targets.find? (fun p => p.2 == gid) with
        | some p => metaGrandLoop targets doc_id (upsertMeta acc doc_id p.1) rest
        | none => metaGrandLoop targets doc_id acc rest
      else metaGrandLoop targets doc_id acc rest

/-- Lines 231-243: the child loop (`doc_lookup.get(child_id)` also hashes
its argument, so a dict child raises `TypeError`; an error raised while
scanning grandchildren propagates, which is the `Except.bind`). -/
def metaChildLoop (docs : List Node) (targets : List (String × String))
    (doc_id : Option String) (acc : List (Option String × String)) :
    List Node → Except String (List (Option String × String))
  | [] => .ok acc
  | .doc _ _ _ _ _ _ _ :: _ => .error "TypeError: unhashable type: dict"
  | .ref cid :: rest =>
      match doc_lookup_get docs cid with
      | none => metaChildLoop docs targets doc_id acc rest
      | some (.ref _) => metaChildLoop docs targets doc_id acc rest
      | some (.doc _ _ _ _ _ _ cch) =>
          if cch.isEmpty then metaChildLoop docs targets doc_id acc rest
          else (metaGrandLoop targets doc_id acc cch.toList).bind
            (fun acc2 => metaChildLoop docs targets doc_id acc2 rest)

/-- Lines 222-243: build `meta_node_to_supertag` by scanning every
document's children and grandchildren for a target supertag id. -/
def build_meta_map (docs : List Node) (targets : List (String × String)) :
    Except String (List (Option String × String)) :=
  docs.foldlM
    (fun acc n =>
      match n with
      | .ref _ => .error "AttributeError: str object has no attribute get"
      | .doc i _ _ _ _ _ ch =>
          if ch.isEmpty then .ok acc
          else metaChildLoop docs targets i acc ch.toList)
    []

/-- Lines 245-313: `traverse_nodes`.  The `nodes_by_supertag` dict is
modelled as the list of `(tag name, node summary)` pairs in the order the
Python code appends them; reading one dict key is `resultFor` below. -/
def traverse_nodes (meta : List (Option String × String))
    (targets : List (String × String)) :
    NodeList → Option String → List (String × Entry)
  | .nil, _ => []
  | .cons (.ref _) rest, parent_path => traverse_nodes meta targets rest parent_path
  | .cons (.doc i u _pid _nm pr st ch) rest, parent_path =>
      if pr.docType == some "tagDef" then
        traverse_nodes meta targets rest parent_path
      else
        let node_name := pr.name.getD ""
        let entry : Entry :=
          { name := if node_name == "" then "Untitled" else node_name
            node_id := i.getD (u.getD "unknown")
            description := pr.description.getD ""
            created := pr.created
            children := ch
            path := parent_path }
        let indirect :=
          match pr.metaNodeId with
          | none => []
          | some m =>
              if m == "" then []
              else
                match List.lookup (some m) meta with
                | none => []
                | some supertag_name =>
                    if strStartsWith node_name "Field defaults for" then []
                    else [(supertag_name, entry)]
        let direct :=
          (st.getD []).flatMap (fun tag =>
            let supertag_id := tag.id.getD (tag.uid.getD "")
            let supertag_name := tag.name.getD ""
            targets.flatMap (fun tgt =>
              if supertag_id == tgt.2 || strToLower supertag_name == strToLower tgt.1 then
                if strStartsWith node_name "Field defaults for" then []
                else [(tgt.1, entry)]
              else []))
        let fromChildren :=
          if ch.isEmpty then []
          else
            let current_name := pr.name.getD "Untitled"
            let current_path :=
              match parent_path with
              | some pp => pp ++ " / " ++ current_name
              | none => current_name
            traverse_nodes meta targets ch (some current_path)
        indirect ++ direct ++ fromChildren ++ traverse_nodes meta targets rest parent_path

/-- Models `docs = data.get('docs', data.get('nodes', []))` (line 207). -/
def importer_docs (data : TanaData) : NodeList :=
  data.docs.getD (data.nodes.getD .nil)

/-- Models `TanaImporter.extract_nodes_by_supertag` (lines 195-315). -/
def extract_nodes_by_supertag (data : TanaData) (kt : KeyTags) :
    Except String (List (String × Entry)) :=
  let targets := target_supertags kt
  let docs := importer_docs data
  if !docsAllDicts docs.toList then
    .error "AttributeError: str object has no attribute get"
  else
    (build_meta_map docs.toList targets).map
      (fun meta => traverse_nodes meta targets docs none)

/-- Reading one key of the `nodes_by_supertag` dict: the entries appended
under that tag name, in append order. -/
def resultFor (pairs : List (String × Entry)) (tag : String) : List Entry :=
  (pairs.filter (fun p => p.1 == tag)).map (fun p => p.2)

/-- The keys of `nodes_by_supertag` in first-insertion order. -/
def tagsOf (pairs : List (String × Entry)) : List String :=
  (pairs.map (fun p => p.1)).eraseDups

/-- Models `TanaImporter.extract_all_supertags` (lines 34-83): the id-keyed dict
of `{name, count}` values as an association list in insertion order;
`elif 'supertags' in item` runs only when the key is present and the
document is not a tag definition. -/
def extract_and_count :
    NodeList → List (String × String × Nat) → List (String × String × Nat)
  | .nil, acc => acc
  | .cons (.ref _) rest, acc => extract_and_count rest acc
  | .cons (.doc i _u _pid _nm pr st ch) rest, acc =>
      let acc1 :=
        if pr.docType == some "tagDef" then
          let tag_id := i.getD ""
          let tag_name := pr.name.getD ""
          if tag_id != "" && tag_name != "" then
            if acc.any (fun p => p.1 == tag_id) then acc
            else acc ++ [(tag_id, tag_name, 0)]
          else acc
        else
          match st with
          | some tags =>
              tags.foldl
                (fun a tag =>
                  let tag_id := tag.uid.getD (tag.id.getD "")
                  let tag_name := tag.name.getD ""
                  if tag_id != "" && tag_name != "" then
                    let a' :=
                      if a.any (fun p => p.1 == tag_id) then a
                      else a ++ [(tag_id, tag_name, 0)]
                    a'.map (fun p =>
                      if p.1 == tag_id then (p.1, p.2.1, p.2.2 + 1) else p)
                  else a)
                acc
          | none => acc
      let acc2 := if ch.isEmpty then acc1 else extract_and_count ch acc1
      extract_and_count rest acc2

/-- Models `nodes = data.get('nodes', data.get('docs', []))` (line 39) followed
by `extract_and_count(nodes)`. -/
def extract_all_supertags (data : TanaData) : List (String × String × Nat) :=
  extract_and_count (data.nodes.getD (data.docs.getD .nil)) []

/-- Models `TanaImporter.create_supertags_md` (lines 85-120): the markdown lines
of `SuperTags.md`.  `now` stands for `datetime.now()` and `footer` for the
`add_markdown_footer` line built from the source file's name and
modification time; `sorted(..., reverse=True)` is the stable descending
sort by usage count. -/
def create_supertags_md_lines (supertags : List (String × String × Nat))
    (now footer : String) : List String :=
  let user_defined := supertags.filter (fun p => !strStartsWith p.1 "SYS_")
  let total := supertags.length
  let shown := user_defined.length
  let header :=
    ["# SuperTags Analysis",
     s!"Generated: {now}",
     s!"Total unique supertags: {total}",
     s!"Showing: {shown} user-defined supertags (excluding system tags)",
     "---",
     "",
     "| Supertag Name | Node ID | Usage Count |",
     "|---------------|---------|-------------|"]
  let sorted := user_defined.insertionSort (fun a b => b.2.2 ≤ a.2.2)
  header
    ++ sorted.map (fun p =>
        let tagId := p.1
        let name := p.2.1
        let count := p.2.2
        s!"| {name} | `{tagId}` [(tana)](https://app.tana.inc?nodeid={tagId}) | {count} |")
    ++ [footer]

/-- One planned file write of `create_supertag_directories`: directory
name and file name (contents come from `format_node_content_new` and
`create_supertag_index`). -/
structure PlannedFile where
  dir : String
  file : String
deriving Repr, DecidableEq

/-- Models `TanaImporter.create_supertag_directories` (lines 439-492):
`total_files_created` counts one file per matched node plus one index file
per non-empty tag; directory and index names lowercase the tag and turn
spaces into hyphens. -/
def create_supertag_directories (pairs : List (String × Entry)) :
    Nat × List PlannedFile :=
  (tagsOf pairs).foldl
    (fun acc supertag_name =>
      let nodes := resultFor pairs supertag_name
      if nodes.isEmpty then acc
      else
        let dir_name := strToLower (replaceSpaces supertag_name)
        let node_files := nodes.map (fun e => PlannedFile.mk dir_name (e.node_id ++ ".md"))
        let index_file :=
          PlannedFile.mk dir_name (strToLower (replaceSpaces supertag_name) ++ ".md")
        (acc.1 + nodes.length + 1, acc.2 ++ node_files ++ [index_file]))
    (0, [])

/-- One entry of the import `issues` list. -/
structure Issue where
  severity : String
  message : String
  details : String
deriving Repr, DecidableEq

/-- Lines 805-816 of `import_file`: `target_supertags` is the set of keys
of the `user_defined` table (tag node ids), `found_supertags` the set of
result dict keys (tag names); their difference is reported in a single
WARNING issue with a sorted id list. -/
def import_issues (kt : KeyTags) (pairs : List (String × Entry)) : List Issue :=
  let target := (kt.user_defined.map (fun p => p.1)).eraseDups
  let found := tagsOf pairs
  let missing := target.filter (fun t => !found.contains t)
  if missing.isEmpty then []
  else
    let count := missing.length
    let joined := String.intercalate ", " (missing.insertionSort (fun a b => strLe a b = true))
    [⟨"WARNING", s!"{count} target supertags had no nodes", s!"Missing: {joined}"⟩]

/-- The dictionary returned by `import_file` (lines 826-837), restricted
to its pure computation. -/
structure ImportResult where
  success : Bool
  supertags_found : Nat
  keytags_loaded : Nat
  nodes_processed : Nat
  directories_created : Nat
  issues : List Issue
  nodes_by_supertag : List (String × Entry)
  files : List PlannedFile
  supertags_md : List String
deriving Repr

/-- Models `TanaImporter.import_file` (lines 769-837), with file loading and
directory clearing abstracted away: extract all supertags, resolve
`nodes_by_supertag` against the keytags, plan the tag directories, render
`SuperTags.md`, and collect the missing-tag issues.  An uncaught Python
exception (nested children in the metanode scan) is `Except.error`. -/
def import_file (data : TanaData) (kt : KeyTags) (now footer : String) :
    Except String ImportResult :=
  (extract_nodes_by_supertag data kt).map (fun pairs =>
    let supertags := extract_all_supertags data
    let plan := create_supertag_directories pairs
    { success := true
      supertags_found := supertags.length
      keytags_loaded := kt.total_supertags
      nodes_processed := plan.1
      directories_created := (tagsOf pairs).length
      issues := import_issues kt pairs
      nodes_by_supertag := pairs
      files := plan.2
      supertags_md := create_supertags_md_lines supertags now footer })

/-- A children item that is an id string (export format). -/
def isRefItem : Node → Bool
  | .ref _ => true
  | .doc _ _ _ _ _ _ _ => false

/-- Whether all of a document's children are id strings — the flat export
format, the only one whose metanode scan does not raise `TypeError`. -/
def childrenAllRefs : Node → Bool
  | .ref _ => true
  | .doc _ _ _ _ _ _ ch => ch.toList.all isRefItem

/-- The `node_id` that `traverse_nodes` records for an item:
`item.get('id', item.get('uid', 'unknown'))`. -/
def nodeIdOf : Node → String
  | .ref s => s
  | .doc i u _ _ _ _ _ => i.getD (u.getD "unknown")

/-- Whether the indirect meta-node strategy appends a document to tag
`T`'s result list: not a tag definition, a truthy `props._metaNodeId`
recorded in the metanode map with value `T`, and a `props.name` that does
not begin with the scaffold phrase (the guard sequence of the first
append in `traverse_nodes`). -/
def indirectMatches (meta : List (Option String × String)) (n : Node) (T : String) : Bool :=
  match n with
  | .ref _ => false
  | .doc _ _ _ _ pr _ _ =>
      !(pr.docType == some "tagDef") &&
      (match pr.metaNodeId with
       | none => false
       | some m => !(m == "") && (List.lookup (some m) meta == some T)) &&
      !(strStartsWith (pr.name.getD "") "Field defaults for")

/-- How many times the direct `supertags`-array strategy appends a
document to tag `T`'s result list: one append per (supertags entry,
matching target) pair — the inner loop of the second append in
`traverse_nodes` has no `break`, so several matches append several
times. -/
def directMatchCount (targets : List (String × String)) (n : Node) (T : String) : Nat :=
  match n with
  | .ref _ => 0
  | .doc _ _ _ _ pr st _ =>
      if pr.docType == some "tagDef" then 0
      else if strStartsWith (pr.name.getD "") "Field defaults for" then 0
      else
        ((st.getD []).map (fun tag =>
          (targets.filter (fun tgt =>
            (tag.id.getD (tag.uid.getD "") == tgt.2
              || strToLower (tag.name.getD "") == strToLower tgt.1)
            && tgt.1 == T)).length)).sum

end TanaImporter

/-- Substring containment on character lists (Python `pat in s`;
`String` search functions do not reduce in the kernel). -/
def charListContains (pat : List Char) : List Char → Bool
  | [] => pat.isEmpty
  | h :: t => pat.isPrefixOf (h :: t) || charListContains pat t

/-- Python `pat in s` for strings. -/
def strContains (s pat : String) : Bool :=
  charListContains pat.data s.data

/-- Python `str.strip()` (whitespace at both ends). -/
def strStrip (s : String) : String :=
  String.mk (((s.data.dropWhile (fun c => c.isWhitespace)).reverse.dropWhile
      (fun c => c.isWhitespace)).reverse)

/-- Split a character list on a separator character (Python
`str.split(sep)` semantics: n separators yield n+1 pieces). -/
def splitOnChar (c : Char) : List Char → List (List Char)
  | [] => [[]]
  | h :: t =>
      let r := splitOnChar c t
      if h == c then [] :: r
      else
        match r with
        | [] => [[h]]
        | x :: xs => (h :: x) :: xs

/-- Python `content.split('\n')`. -/
def splitLines (s : String) : List String :=
  (splitOnChar (Char.ofNat 10) s.data).map String.mk

/-- One `fields` entry of a TIF node (read by `is_supertag` and
`extract_fields`). -/
structure TifField where
  name : Option String := none
  ftype : Option String := none
  required : Option Bool := none
  default : Option String := none
deriving Repr, DecidableEq

mutual
/-- A node of the TIF-style JSON handled by `TanaJSONParser`: `uid`,
`name`, `type`, `content`, `parentId` are optional dict keys; `supertags`
and `tags` are id lists; `children` are embedded nodes (an absent
`children` key is the empty list — the code only ever iterates it). -/
inductive TifNode where
  | mk (uid name ntype content parentId : Option String)
       (supertags tags : List String) (fields : List TifField)
       (children : TifList) (created edited : Option Int)
deriving Repr
/-- A list of embedded TIF nodes. -/
inductive TifList where
  | nil
  | cons (n : TifNode) (rest : TifList)
deriving Repr
end

def TifNode.uid : TifNode → Option String
  | .mk u _ _ _ _ _ _ _ _ _ _ => u

def TifNode.content : TifNode → Option String
  | .mk _ _ _ ct _ _ _ _ _ _ _ => ct

def TifNode.children : TifNode → TifList
  | .mk _ _ _ _ _ _ _ _ ch _ _ => ch

def TifNode.edited : TifNode → Option Int
  | .mk _ _ _ _ _ _ _ _ _ _ ed => ed

namespace TanaJSONParser

/-- Models `TanaJSONParser.is_supertag` (lines 231-239). -/
def is_supertag : TifNode → Bool
  | .mk u nm ty _ _ _ _ fl _ _ _ =>
      ty == some "supertag"
      || strContains (strToLower (nm.getD "")) "supertag"
      || fl.any (fun f => f.ftype == some "supertag")
      || strStartsWith (u.getD "") "supertag_"

mutual
/-- Models `TanaJSONParser.extract_content` (lines 274-288): the node's own
`content` (when the key is present), then each non-supertag child's
extracted content when non-empty, joined with newlines. -/
def extract_content : TifNode → String
  | .mk _ _ _ ct _ _ _ _ ch _ _ =>
      String.intercalate "\n"
        ((match ct with | some c => [c] | none => []) ++ extract_content_parts ch)

/-- The `for child in node["children"]` loop of `extract_content`. -/
def extract_content_parts : TifList → List String
  | .nil => []
  | .cons child rest =>
      if is_supertag child then extract_content_parts rest
      else
        let cc := extract_content child
        (if cc == "" then [] else [cc]) ++ extract_content_parts rest
end

/-- Models `TanaJSONParser.insert_before_section` (lines 655-666): insert before
the first line that equals `## {section}` when stripped, or contains the
section name case-insensitively. -/
def insert_before_loop (sectionName new_content : String) : List String → List String
  | [] => []
  | line :: rest =>
      if strStrip line == "## " ++ sectionName
          || strContains (strToLower line) (strToLower sectionName) then
        ("\n" ++ new_content) :: line :: rest
      else line :: insert_before_loop sectionName new_content rest

def insert_before_section (content sectionName new_content : String) : String :=
  String.intercalate "\n" (insert_before_loop sectionName new_content (splitLines content))

/-- The `while` loop of `insert_after_section`: skip the contiguous
non-blank, non-heading block, then insert. -/
def insert_after_advance (new_content : String) : List String → List String
  | [] => ["\n" ++ new_content]
  | line :: rest =>
      if strStartsWith (strStrip line) "##" || strStrip line == "" then
        ("\n" ++ new_content) :: line :: rest
      else line :: insert_after_advance new_content rest

/-- Models `TanaJSONParser.insert_after_section` (lines 668-685). -/
def insert_after_loop (sectionName new_content : String) : List String → List String
  | [] => []
  | line :: rest =>
      if strStrip line == "## " ++ sectionName
          || strContains (strToLower line) (strToLower sectionName) then
        line :: insert_after_advance new_content rest
      else line :: insert_after_loop sectionName new_content rest

def insert_after_section (content sectionName new_content : String) : String :=
  String.intercalate "\n" (insert_after_loop sectionName new_content (splitLines content))

/-- Python truthiness of the `section` option (`None` and `""` falsy). -/
def sectionTruthy : Option String → Bool
  | none => false
  | some s => !(s == "")

/-- Set `modified_node["content"]` and `modified_node["edited"]`. -/
def setContentEdited : TifNode → String → Int → TifNode
  | .mk u nm ty _ pid st tg fl ch cr _, c, now =>
      .mk u nm ty (some c) pid st tg fl ch cr (some now)

/-- Models `TanaJSONParser.modify_node_content` (lines 615-653): compute the new
content from the extracted current content and the requested position,
then set `content` and the `edited` timestamp (`now` stands for
`int(datetime.now().timestamp() * 1000)`). -/
def modify_node_content (node_data : TifNode) (content : String) (position : String)
    (sectionName : Option String) (now : Int) : TifNode :=
  let current_content := extract_content node_data
  let new_content :=
    if current_content == "" then content else "\n\n" ++ content
  let modified_content :=
    if position == "start" then
      content ++ (if current_content == "" then "" else "\n\n" ++ current_content)
    else if position == "end" then current_content ++ new_content
    else if position == "before_section" && sectionTruthy sectionName then
      insert_before_section current_content (sectionName.getD "") content
    else if position == "after_section" && sectionTruthy sectionName then
      insert_after_section current_content (sectionName.getD "") content
    else current_content ++ new_content
  setContentEdited node_data modified_content now

/-- The three top-level JSON shapes `TanaJSONParser` handles:
`{"nodes": [...]}`, a bare array, and a single node object. -/
inductive RawData where
  | withNodes (nodes : TifList)
  | bare (nodes : TifList)
  | single (node : TifNode)
deriving Repr

/-- Models `TanaJSONParser.traverse_nodes` (lines 205-229) restricted to one
list: pre-order — each node, then its children, then its siblings. -/
def tifFlatten : TifList → List TifNode
  | .nil => []
  | .cons n@(.mk _ _ _ _ _ _ _ _ ch _ _) rest =>
      n :: (tifFlatten ch ++ tifFlatten rest)

/-- Models `traverse_nodes` over a whole document (all three shapes flatten the
same way). -/
def rawTraverse : RawData → List TifNode
  | .withNodes l => tifFlatten l
  | .bare l => tifFlatten l
  | .single n => tifFlatten (.cons n .nil)

/-- Models `TanaJSONParser.find_node_by_id` (lines 331-342): first node in
traversal order whose `uid` equals the id. -/
def find_node_by_id (node_id : String) (raw : RawData) : Option TifNode :=
  (rawTraverse raw).find? (fun n => n.uid == some node_id)

/-- Replace a node's children list (Python mutates the list in place). -/
def setChildren : TifNode → TifList → TifNode
  | .mk u nm ty ct pid st tg fl _ cr ed, ch => .mk u nm ty ct pid st tg fl ch cr ed

/-- Models `find_and_update` inside `update_node_in_json` (lines 689-698):
replace the first node (pre-order) whose `uid` matches. -/
def findAndUpdate (node_id : String) (new : TifNode) : TifList → Bool × TifList
  | .nil => (false, .nil)
  | .cons n@(.mk u _ _ _ _ _ _ _ ch _ _) rest =>
      if u == some node_id then (true, .cons new rest)
      else
        let inner := findAndUpdate node_id new ch
        if inner.1 then (true, .cons (setChildren n inner.2) rest)
        else
          let outer := findAndUpdate node_id new rest
          (outer.1, .cons n outer.2)

/-- An observable file-system side effect of the editor. -/
inductive Effect where
  | backupWrite
  | fileBackupCopy
  | fileWrite
deriving Repr, DecidableEq

/-- A `{success, error?}` result dict. -/
structure OpResult where
  success : Bool
  error : Option String := none
deriving Repr, DecidableEq

/-- Models `TanaJSONParser.update_node_in_json` (lines 687-717). -/
def update_node_in_json (node_id : String) (modified : TifNode) (raw : RawData) :
    OpResult × RawData :=
  match raw with
  | .withNodes l =>
      let r := findAndUpdate node_id modified l
      if r.1 then ({ success := true }, .withNodes r.2)
      else ({ success := false,
              error := some ("Node '" ++ node_id ++ "' not found in JSON structure") }, raw)
  | .bare l =>
      let r := findAndUpdate node_id modified l
      if r.1 then ({ success := true }, .bare r.2)
      else ({ success := false,
              error := some ("Node '" ++ node_id ++ "' not found in JSON structure") }, raw)
  | .single n =>
      if n.uid == some node_id then ({ success := true }, .single modified)
      else ({ success := false,
              error := some ("Node '" ++ node_id ++ "' not found in JSON structure") }, raw)

/-- Models `TanaJSONParser.create_node_backup` (lines 567-613): writes one
backup markdown file; any `OSError` during the write surfaces as
`{success: false}` — the `backupOk` oracle stands for "no exception was
raised", and on failure no completed backup write is recorded. -/
def create_node_backup (backupOk : Bool) : OpResult × List Effect :=
  if backupOk then ({ success := true }, [Effect.backupWrite])
  else ({ success := false, error := some "backup failed" }, [])

/-- Models `TanaJSONParser.save_modified_json` (lines 719-749): no source file
is a structured failure with no write; otherwise copy the original to a
timestamped backup (when it exists) and rewrite the source file — the
`saveOk` oracle stands for "the rewrite raised no exception". -/
def save_modified_json (sourceFile : Option String) (fileExists saveOk : Bool) :
    OpResult × List Effect :=
  match sourceFile with
  | none => ({ success := false, error := some "No source file path available" }, [])
  | some _ =>
      let copyEffects := if fileExists then [Effect.fileBackupCopy] else []
      if saveOk then ({ success := true }, copyEffects ++ [Effect.fileWrite])
      else ({ success := false, error := some "write failed" }, copyEffects)

/-- Models `TanaJSONParser.append_to_node` (lines 483-565), with the parsed
source data, source file path and I/O outcomes as explicit inputs (the
whole Python body runs inside `try/except`, so every failure path
returns a `{success: false, error}` dict; nothing escapes).  Returns the
result dict together with the trace of file-system effects. -/
def append_to_node (raw : Option RawData) (sourceFile : Option String)
    (fileExists backupOk saveOk : Bool) (node_id content : String)
    (position : String) (sectionName : Option String) (now : Int) :
    OpResult × List Effect :=
  match raw with
  | none => ({ success := false, error := some "No Tana JSON data available" }, [])
  | some raw_data =>
      match find_node_by_id node_id raw_data with
      | none =>
          ({ success := false, error := some ("Node '" ++ node_id ++ "' not found") }, [])
      | some node_data =>
          let backup := create_node_backup backupOk
          if !backup.1.success then
            ({ success := false, error := some "Failed to create backup" }, backup.2)
          else
            let modified_node := modify_node_content node_data content position sectionName now
            let update := update_node_in_json node_id modified_node raw_data
            if !update.1.success then
              ({ success := false, error := some "Failed to update node" }, backup.2)
            else
              let save := save_modified_json sourceFile fileExists saveOk
              if !save.1.success then
                ({ success := false, error := some "Failed to save changes" },
                  backup.2 ++ save.2)
              else ({ success := true }, backup.2 ++ save.2)

end TanaJSONParser

/-- A content-only node with existing content `"X"` (C6/C7 witness). -/
def witnessTifNode : TifNode :=
  .mk none none none (some "X") none [] [] [] .nil none none

/-- A named, identified node used by the C7 witness. -/
def editNode : TifNode :=
  .mk (some "n1") (some "N") none (some "X") none [] [] [] .nil none none

/-- A KeyTags registry with the single user-defined tag
`t1 -> "Project"`. -/
def keytagsProjectOnly : KeyTags :=
  { user_defined := [("t1", { name := some "Project", node_id := some "t1" })],
    total_supertags := 1 }

/-- A KeyTags registry with `t1 -> "Project"` and `t2 -> "Task"`. -/
def keytagsProjectTask : KeyTags :=
  { user_defined := [("t1", { name := some "Project", node_id := some "t1" }),
                     ("t2", { name := some "Task", node_id := some "t2" })],
    total_supertags := 2 }

/-- The C4 scenario graph: a root without parent, child `A_id` carrying
`supertags=[{id:"t1",name:"Project"}]`, child `B_id` without supertags. -/
def scenarioDocs : NodeList := NodeList.ofList
  [.doc (some "root") none none (some "Root") {} none .nil,
   .doc (some "A_id") none (some "root") none { name := some "A" }
     (some [{ id := some "t1", name := some "Project" }]) .nil,
   .doc (some "B_id") none (some "root") none { name := some "B" } none .nil]

/-- The C4 scenario as export-format data (`docs` key present). -/
def scenarioData : TanaData := { docs := some scenarioDocs }

/-- A graph in which node `n` matches tag `Project` through BOTH
strategies: `n.props._metaNodeId = "m"`, and the meta hop
`m -> tuple "tu" -> grandchild id "t1"` records `m` as a metanode of the
target tag, while `n` also carries a direct `supertags` entry for `t1`. -/
def metaHopDocs : NodeList := NodeList.ofList
  [.doc (some "m") none none none {} none (NodeList.ofList [.ref "tu"]),
   .doc (some "tu") none none none {} none (NodeList.ofList [.ref "t1"]),
   .doc (some "t1") none none none
     { name := some "Project", docType := some "tagDef" } none .nil,
   .doc (some "n") none none none { name := some "Note", metaNodeId := some "m" }
     (some [{ id := some "t1", name := some "Project" }]) .nil]

/-- The meta-hop graph as export-format data. -/
def metaHopData : TanaData := { docs := some metaHopDocs }

/-- A graph whose single document carries its display name as the
TOP-LEVEL `name` field — `"Field defaults for Everything tagged"` — with
no `props.name`, plus a direct `supertags` match for the target tag. -/
def fieldDefaultsDocs : NodeList := NodeList.ofList
  [.doc (some "fd") none none (some "Field defaults for Everything tagged") {}
     (some [{ id := some "t1", name := some "Project" }]) .nil]

/-- The top-level-name graph as export-format data. -/
def fieldDefaultsData : TanaData := { docs := some fieldDefaultsDocs }

/-- The node of the C1 witness graph: matched by the indirect meta hop
only (no `supertags` array). -/
def indirectOnlyNode : Node :=
  .doc (some "n2") none none none
    { name := some "Note2", metaNodeId := some "m" } none .nil

/-- The metanode scaffolding of the C1 witness graph. -/
def indirectOnlyPre : List Node :=
  [.doc (some "m") none none none {} none (NodeList.ofList [.ref "tu"]),
   .doc (some "tu") none none none {} none (NodeList.ofList [.ref "t1"]),
   .doc (some "t1") none none none
     { name := some "Project", docType := some "tagDef" } none .nil]

/-- The C1 witness graph as export-format data. -/
def indirectOnlyData : TanaData :=
  { docs := some (NodeList.ofList (indirectOnlyPre ++ [indirectOnlyNode])) }

/-- The props of a tag-definition document used in the C9 witness. -/
def tagDefProps : Props :=
  { name := some "Project", docType := some "tagDef" }

/-- Children embedded (nested format) under the C9 witness tag
definition: a document that would match the target tag through BOTH its
`_metaNodeId` and its `supertags` array, were it ever traversed. -/
def tagDefChildren : NodeList := NodeList.ofList
  [.doc (some "hidden") none none none
     { name := some "Hidden", metaNodeId := some "m" }
     (some [{ id := some "t1", name := some "Project" }]) .nil]

/-- C2 counterexample: on the two-node parent cycle,
`TanaParser.get_tree_depth` is still recursing after 60 nested calls —
so its recursion is not capped at 50 levels and no visited-set stops the
re-descent; the traversal does not terminate. -/
theorem get_tree_depth_cycle_not_capped :
    TanaParser.get_tree_depth 60 cycleDocs "a" = none := by decide

/-- C2 (amended): the outline generator's `_calculate_depth` is the
guarded traversal: (a) any call finishes within `52 - current_depth`
nested calls, because the recursion is hard-capped at depth 50; (b) a
node id already in the visited set is never re-descended into — the call
returns immediately without touching its children; (c) by contrast
`TanaParser.get_tree_depth` has no such guards: on the two-node parent
cycle it is still recursing after any number of nested calls. -/
theorem calculate_depth_guarded :
    (∀ (fuel : Nat) (docs : List PDoc) (processed : List String)
        (node_id : String) (d : Nat), 51 - d < fuel →
        (TanaOutlineGenerator.calculate_depth fuel docs processed node_id d).isSome = true)
    ∧ (∀ (fuel : Nat) (docs : List PDoc) (processed : List String)
        (node_id : String) (d : Nat), node_id ∈ processed → 0 < fuel →
        TanaOutlineGenerator.calculate_depth fuel docs processed node_id d
          = some (d, processed))
    ∧ (∀ fuel : Nat, TanaParser.get_tree_depth fuel cycleDocs "a" = none) := by
  have main : ∀ (fuel : Nat) (docs : List PDoc) (processed : List String)
      (node_id : String) (d : Nat), 51 - d < fuel →
      (TanaOutlineGenerator.calculate_depth fuel docs processed node_id d).isSome = true := by
    intro fuel
    induction fuel with
    | zero => intro docs processed nid d h; exact absurd h (Nat.not_lt_zero _)
    | succ n ih =>
      intro docs processed nid d h
      by_cases hg : nid ∈ processed ∨ d > 50
      · simp [TanaOutlineGenerator.calculate_depth, hg]
      · have hd : d ≤ 50 := by
          rcases Nat.lt_or_ge 50 d with h50 | h50
          · exact absurd (Or.inr h50) hg
          · exact h50
        by_cases hc : (TanaOutlineGenerator.get_children docs nid).isEmpty
        · simp [TanaOutlineGenerator.calculate_depth, hg, hc]
        · have hfold : ∀ (l : List String) (acc : Nat × List String),
              (l.foldlM
                (fun acc cid =>
                  (TanaOutlineGenerator.calculate_depth n docs acc.2 cid (d + 1)).map
                    (fun r => (max acc.1 r.1, r.2))) acc).isSome = true := by
            intro l
            induction l with
            | nil => intro acc; simp
            | cons c cs ihl =>
              intro acc
              have hrec := ih docs acc.2 c (d + 1) (by omega)
              rcases Option.isSome_iff_exists.mp hrec with ⟨r, hr⟩
              simpa [hr] using ihl (max acc.1 r.1, r.2)
          simpa [TanaOutlineGenerator.calculate_depth, hg, hc] using
            hfold (TanaOutlineGenerator.get_children docs nid) _
  have div : ∀ fuel : Nat,
      TanaParser.get_tree_depth fuel cycleDocs "a" = none ∧
      TanaParser.get_tree_depth fuel cycleDocs "b" = none := by
    intro fuel
    induction fuel with
    | zero => exact ⟨rfl, rfl⟩
    | succ n ih =>
      have ha : TanaParser.get_children cycleDocs "a" = ["b"] := by decide
      have hb : TanaParser.get_children cycleDocs "b" = ["a"] := by decide
      constructor
      · simp [TanaParser.get_tree_depth, ha, ih.2, List.mapM.loop]
      · simp [TanaParser.get_tree_depth, hb, ih.1, List.mapM.loop]
  refine ⟨main, ?_, fun fuel => (div fuel).1⟩
  intro fuel docs processed nid d hmem hf
  match fuel, hf with
  | n + 1, _ => simp [TanaOutlineGenerator.calculate_depth, hmem]

/-- Witness for C2 (amended) at concrete inputs: fuel 52 suffices from
depth 0 even on the cyclic graph, and a visited node returns its depth
unchanged. -/
theorem calculate_depth_guarded_witness :
    (51 - 0 < 52
      ∧ (TanaOutlineGenerator.calculate_depth 52 cycleDocs [] "a" 0).isSome = true)
    ∧ ("a" ∈ ["a"] ∧ 0 < 1
      ∧ TanaOutlineGenerator.calculate_depth 1 cycleDocs ["a"] "a" 3 = some (3, ["a"]))
    ∧ TanaParser.get_tree_depth 7 cycleDocs "a" = none :=
  ⟨⟨by decide, calculate_depth_guarded.1 52 cycleDocs [] "a" 0 (by decide)⟩,
   ⟨by decide, by decide,
    calculate_depth_guarded.2.1 1 cycleDocs ["a"] "a" 3 (by decide) (by decide)⟩,
   calculate_depth_guarded.2.2 7⟩

/-- A list without duplicates drawn from a pool `S` is no longer than the
number of distinct elements of `S`. -/
theorem nodup_length_le_dedup (l S : List String) (hnd : l.Nodup)
    (hsub : ∀ x ∈ l, x ∈ S) : l.length ≤ S.dedup.length := by
  have h1 : l.toFinset.card = l.length := List.toFinset_card_of_nodup hnd
  have h2 : S.toFinset.card = S.dedup.length := List.card_toFinset S
  have hsub' : l.toFinset ⊆ S.toFinset := fun x hx =>
    List.mem_toFinset.mpr (hsub x (List.mem_toFinset.mp hx))
  calc l.length = l.toFinset.card := h1.symm
    _ ≤ S.toFinset.card := Finset.card_le_card hsub'
    _ = S.dedup.length := h2

/-- Invariant-carrying run of the `get_path` loop: with enough fuel the
loop always finishes, preserving no-duplicates, the parent-chain shape
and the head of the path. -/
theorem get_path_loop_spec (docs : List PDoc) (S : List String)
    (hS : ∀ p ∈ TanaParser.parentIds docs, p ∈ S) :
    ∀ (fuel : Nat) (path : List String) (cur : Option String),
      path.Nodup →
      (∀ x ∈ path, x ∈ S) →
      (∀ c, cur = some c → c = "" ∨ c ∈ path ∨ c ∈ S) →
      List.Chain' (fun a b => TanaParser.get_parent docs a = some b) path →
      (∀ hl : path ≠ [], cur = TanaParser.get_parent docs (path.getLast hl)) →
      S.dedup.length + 1 ≤ fuel + path.length →
      ∃ p, TanaParser.get_path_loop docs fuel path cur = some p ∧ p.Nodup ∧
        List.Chain' (fun a b => TanaParser.get_parent docs a = some b) p ∧
        (path ≠ [] → p.head? = path.head?) ∧
        (path = [] → ∀ c, cur = some c → c ≠ "" → p.head? = some c) := by
  intro fuel
  induction fuel with
  | zero =>
    intro path cur hnd hsub hcur _hch _hlink hbound
    match cur with
    | none =>
      exact ⟨path, rfl, hnd, _hch, fun _ => rfl, fun hp c hc _ => by simp [hp] at hc ⊢⟩
    | some c =>
      by_cases hg : c = "" ∨ c ∈ path
      · refine ⟨path, by simp [TanaParser.get_path_loop, hg], hnd, _hch, fun _ => rfl, ?_⟩
        intro hp c' hc' hne
        cases hc'
        rcases hg with hg | hg
        · exact absurd hg hne
        · rw [hp] at hg; simp at hg
      · exfalso
        push_neg at hg
        have hcS : c ∈ S := by
          rcases hcur c rfl with h | h | h
          · exact absurd h hg.1
          · exact absurd h hg.2
          · exact h
        have : (path ++ [c]).length ≤ S.dedup.length := by
          refine nodup_length_le_dedup _ _ ?_ ?_
          · simp [List.nodup_append, hnd, hg.2]
          · intro x hx
            rcases List.mem_append.mp hx with hx | hx
            · exact hsub x hx
            · simp at hx; simpa [hx] using hcS
        simp at this
        omega
  | succ n ih =>
    intro path cur hnd hsub hcur hch hlink hbound
    match cur with
    | none =>
      exact ⟨path, rfl, hnd, hch, fun _ => rfl, fun hp c hc _ => by simp at hc⟩
    | some c =>
      by_cases hg : c = "" ∨ c ∈ path
      · refine ⟨path, by simp [TanaParser.get_path_loop, hg], hnd, hch, fun _ => rfl, ?_⟩
        intro hp c' hc' hne
        cases hc'
        rcases hg with hg | hg
        · exact absurd hg hne
        · rw [hp] at hg; simp at hg
      · push_neg at hg
        have hcS : c ∈ S := by
          rcases hcur c rfl with h | h | h
          · exact absurd h hg.1
          · exact absurd h hg.2
          · exact h
        have hnd' : (path ++ [c]).Nodup := by
          simp [List.nodup_append, hnd, hg.2]
        have hsub' : ∀ x ∈ path ++ [c], x ∈ S := by
          intro x hx
          rcases List.mem_append.mp hx with hx | hx
          · exact hsub x hx
          · simp at hx; simpa [hx] using hcS
        have hcur' : ∀ c', TanaParser.get_parent docs c = some c' →
            c' = "" ∨ c' ∈ path ++ [c] ∨ c' ∈ S := by
          intro c' hc'
          right; right
          unfold TanaParser.get_parent at hc'
          match hfind : TanaParser.get_node docs c with
          | none => rw [hfind] at hc'; simp at hc'
          | some d =>
            rw [hfind] at hc'
            apply hS
            unfold TanaParser.parentIds
            refine List.mem_filterMap.mpr ⟨d, ?_, hc'⟩
            exact List.mem_of_find?_eq_some hfind
        have hch' : List.Chain' (fun a b => TanaParser.get_parent docs a = some b)
            (path ++ [c]) := by
          apply List.Chain'.append hch (List.chain'_singleton c)
          intro x hx y hy
          simp at hy
          subst hy
          match hpe : path, hx with
          | q :: qs, hx =>
            have := hlink (by simp)
            rw [List.getLast?_eq_getLast _ (by simp)] at hx
            cases hx
            exact this.symm
        have hlink' : ∀ hl : path ++ [c] ≠ [],
            TanaParser.get_parent docs c =
              TanaParser.get_parent docs ((path ++ [c]).getLast hl) := by
          intro hl
          simp [List.getLast_append]
        obtain ⟨p, hp, hpnd, hpch, hphead1, hphead2⟩ :=
          ih (path ++ [c]) (TanaParser.get_parent docs c) hnd' hsub'
            (fun c' hc' => hcur' c' hc') hch'
            (fun hl => hlink' hl) (by simp; omega)
        refine ⟨p, ?_, hpnd, hpch, ?_, ?_⟩
        · rw [show TanaParser.get_path_loop docs (n + 1) path (some c)
              = TanaParser.get_path_loop docs n (path ++ [c])
                  (TanaParser.get_parent docs c) by
            simp [TanaParser.get_path_loop, hg.1, hg.2]]
          exact hp
        · intro hpe
          have := hphead1 (by simp)
          rw [this]
          match path, hpe with
          | q :: qs, _ => simp
        · intro hpe c' hc' hne
          cases hc'
          have := hphead1 (by simp)
          rw [this, hpe]
          simp

/-- C10: for every graph (cyclic parent links included) and every node
id, `get_path` terminates and returns a duplicate-free list in which each
element is the parent of the next, ending at the queried node id (when
that id is non-empty, i.e. truthy). -/
theorem get_path_spec (docs : List PDoc) (node_id : String) :
    ∃ p, TanaParser.get_path docs node_id = some p
      ∧ p.Nodup
      ∧ List.Chain' (fun a b => TanaParser.get_parent docs b = some a) p
      ∧ (node_id ≠ "" → p.getLast? = some node_id) := by
  obtain ⟨q, hq, hnd, hch, _hh1, hh2⟩ :=
    get_path_loop_spec docs (node_id :: TanaParser.parentIds docs)
      (fun p hp => List.mem_cons_of_mem _ hp)
      ((node_id :: TanaParser.parentIds docs).dedup.length + 1) [] (some node_id)
      List.nodup_nil (by simp)
      (fun c hc => by cases hc; exact Or.inr (Or.inr (List.mem_cons_self _ _)))
      List.chain'_nil (fun hl => absurd rfl hl) (by omega)
  refine ⟨q.reverse, by simp [TanaParser.get_path, hq], (List.nodup_reverse.mpr hnd), ?_, ?_⟩
  · rw [List.chain'_reverse]
    exact hch
  · intro hne
    rw [List.getLast?_reverse]
    exact hh2 rfl node_id rfl hne

/-- Witness for C10: a self-parenting node `"a"` yields the one-element
path `["a"]`, and the general theorem applies to it. -/
theorem get_path_spec_witness :
    TanaParser.get_path [⟨"a", some "a", {}⟩] "a" = some ["a"]
    ∧ ∃ p, TanaParser.get_path [⟨"a", some "a", {}⟩] "a" = some p
        ∧ p.Nodup
        ∧ List.Chain' (fun a b => TanaParser.get_parent [⟨"a", some "a", {}⟩] b = some a) p
        ∧ ("a" ≠ "" → p.getLast? = some "a") :=
  ⟨by decide, get_path_spec [⟨"a", some "a", {}⟩] "a"⟩

namespace TanaImporter

theorem filter_flatMap_length {α β : Type} (l : List α) (f : α → List β) (p : β → Bool) :
    ((l.flatMap f).filter p).length = (l.map (fun x => ((f x).filter p).length)).sum := by
  induction l with
  | nil => simp
  | cons a as ih => simp [List.flatMap_cons, List.filter_append, ih]

theorem sum_ite_eq_filter_length {α : Type} (l : List α) (q : α → Bool) :
    (l.map (fun x => if q x then 1 else 0)).sum = (l.filter q).length := by
  induction l with
  | nil => simp
  | cons a as ih => by_cases h : q a <;> simp [h, ih, Nat.add_comm]

/-- Items that are all id strings contribute nothing to the traversal
(the `isinstance(item, dict)` guard skips every one of them). -/
theorem traverse_refs_nil (meta : List (Option String × String))
    (targets : List (String × String)) :
    (l : NodeList) → (∀ c ∈ l.toList, isRefItem c = true) →
    ∀ p, traverse_nodes meta targets l p = []
  | .nil => fun _ _ => rfl
  | .cons (.ref s) rest => fun h p => by
      rw [traverse_nodes.eq_2]
      exact traverse_refs_nil meta targets rest
        (fun c hc => h c (List.mem_cons_of_mem _ hc)) p
  | .cons (.doc i u pid nm pr st ch) rest => fun h p => by
      have := h (.doc i u pid nm pr st ch) (List.mem_cons_self _ _)
      simp [isRefItem] at this

theorem indirect_filter_length (meta : List (Option String × String)) (T nid : String)
    (entry : Entry) (mn : Option String) (node_name : String) :
    ((match mn with
      | none => ([] : List (String × Entry))
      | some m =>
          if (m == "") = true then []
          else
            match List.lookup (some m) meta with
            | none => []
            | some sname =>
                if strStartsWith node_name "Field defaults for" = true then []
                else [(sname, entry)]).filter
        (fun q : String × Entry => q.1 == T && q.2.node_id == nid)).length
    = if ((match mn with
          | none => false
          | some m => !(m == "") && (List.lookup (some m) meta == some T))
        && !(strStartsWith node_name "Field defaults for")
        && (entry.node_id == nid)) = true then 1 else 0 := by
  rcases mn with _ | m
  · simp
  · by_cases hm : (m == "") = true
    · simp [hm]
    · rcases hlk : List.lookup (some m) meta with _ | sname
      · simp [hm, hlk]
      · by_cases hfd : strStartsWith node_name "Field defaults for" = true
        · simp [hm, hlk, hfd]
        · by_cases hT : (sname == T) = true
          · by_cases hid : (entry.node_id == nid) = true
            · simp [hm, hlk, hfd, hT, hid]
            · simp [hm, hlk, hfd, hT, hid]
          · simp [hm, hlk, hfd, hT]

theorem direct_filter_length (targets : List (String × String)) (T nid : String)
    (entry : Entry) (st : List TagRef) (node_name : String) :
    ((st.flatMap (fun tag =>
        targets.flatMap (fun tgt =>
          if (tag.id.getD (tag.uid.getD "") == tgt.2
              || strToLower (tag.name.getD "") == strToLower tgt.1) = true then
            if strStartsWith node_name "Field defaults for" = true then []
            else [(tgt.1, entry)]
          else []))).filter
        (fun q : String × Entry => q.1 == T && q.2.node_id == nid)).length
    = if strStartsWith node_name "Field defaults for" = true then 0
      else if (entry.node_id == nid) = true then
        (st.map (fun tag =>
          (targets.filter (fun tgt =>
            (tag.id.getD (tag.uid.getD "") == tgt.2
              || strToLower (tag.name.getD "") == strToLower tgt.1)
            && tgt.1 == T)).length)).sum
      else 0 := by
  rw [filter_flatMap_length]
  have htag : ∀ tag : TagRef,
      ((targets.flatMap (fun tgt =>
          if (tag.id.getD (tag.uid.getD "") == tgt.2
              || strToLower (tag.name.getD "") == strToLower tgt.1) = true then
            if strStartsWith node_name "Field defaults for" = true then []
            else [(tgt.1, entry)]
          else [])).filter
          (fun q : String × Entry => q.1 == T && q.2.node_id == nid)).length
      = if strStartsWith node_name "Field defaults for" = true then 0
        else if (entry.node_id == nid) = true then
          (targets.filter (fun tgt =>
            (tag.id.getD (tag.uid.getD "") == tgt.2
              || strToLower (tag.name.getD "") == strToLower tgt.1)
            && tgt.1 == T)).length
        else 0 := by
    intro tag
    rw [filter_flatMap_length]
    by_cases hfd : strStartsWith node_name "Field defaults for" = true
    · simp [hfd]
    · by_cases hid : (entry.node_id == nid) = true
      · simp only [hfd, if_false, hid, if_true]
        rw [← sum_ite_eq_filter_length]
        apply congrArg List.sum
        apply List.map_congr_left
        intro tgt _
        by_cases hc : (tag.id.getD (tag.uid.getD "") == tgt.2
            || strToLower (tag.name.getD "") == strToLower tgt.1) = true
        · by_cases hT : (tgt.1 == T) = true
          · simp [hc, hT, hfd, hid]
          · simp [hc, hT, hfd]
        · simp [hc]
      · have hz : ∀ tgt ∈ targets,
            ((if (tag.id.getD (tag.uid.getD "") == tgt.2
                || strToLower (tag.name.getD "") == strToLower tgt.1) = true then
              if strStartsWith node_name "Field defaults for" = true then []
              else [(tgt.1, entry)]
            else []).filter
              (fun q : String × Entry => q.1 == T && q.2.node_id == nid)).length = 0 := by
          intro tgt _
          by_cases hc : (tag.id.getD (tag.uid.getD "") == tgt.2
              || strToLower (tag.name.getD "") == strToLower tgt.1) = true
          · simp [hc, hfd, hid]
          · simp [hc]
        rw [List.map_congr_left hz]
        simp [hfd, hid]
  by_cases hfd : strStartsWith node_name "Field defaults for" = true
  · have hz : ∀ tag ∈ st,
        ((targets.flatMap (fun tgt =>
            if (tag.id.getD (tag.uid.getD "") == tgt.2
                || strToLower (tag.name.getD "") == strToLower tgt.1) = true then
              if strStartsWith node_name "Field defaults for" = true then []
              else [(tgt.1, entry)]
            else [])).filter
            (fun q : String × Entry => q.1 == T && q.2.node_id == nid)).length = 0 := by
      intro tag _
      rw [htag tag, if_pos hfd]
    rw [List.map_congr_left hz]
    simp [hfd]
  · by_cases hid : (entry.node_id == nid) = true
    · have hz : ∀ tag ∈ st,
          ((targets.flatMap (fun tgt =>
              if (tag.id.getD (tag.uid.getD "") == tgt.2
                  || strToLower (tag.name.getD "") == strToLower tgt.1) = true then
                if strStartsWith node_name "Field defaults for" = true then []
                else [(tgt.1, entry)]
              else [])).filter
              (fun q : String × Entry => q.1 == T && q.2.node_id == nid)).length
          = (targets.filter (fun tgt =>
              (tag.id.getD (tag.uid.getD "") == tgt.2
                || strToLower (tag.name.getD "") == strToLower tgt.1)
              && tgt.1 == T)).length := by
        intro tag _
        rw [htag tag, if_neg hfd, if_pos hid]
      rw [List.map_congr_left hz, if_neg hfd, if_pos hid]
    · have hz : ∀ tag ∈ st,
          ((targets.flatMap (fun tgt =>
              if (tag.id.getD (tag.uid.getD "") == tgt.2
                  || strToLower (tag.name.getD "") == strToLower tgt.1) = true then
                if strStartsWith node_name "Field defaults for" = true then []
                else [(tgt.1, entry)]
              else [])).filter
              (fun q : String × Entry => q.1 == T && q.2.node_id == nid)).length = 0 := by
        intro tag _
        rw [htag tag, if_neg hfd, if_neg hid]
      rw [List.map_congr_left hz]
      simp [hfd, hid]

theorem head_count_eq (b fd idm : Bool) (s : Nat) :
    (if (b && idm) = true then 1 else 0)
      + (if fd = true then 0 else if idm = true then s else 0)
    = if idm = true then
        (if b = true then 1 else 0) + (if fd = true then 0 else s)
      else 0 := by
  cases b <;> cases fd <;> cases idm <;> simp

/-- On a flat graph (all children are id strings), the number of entries
recorded for tag `T` with a given `node_id` is the sum, over the items,
of one per indirect match plus one per direct (entry, target) match. -/
theorem traverse_count_flat (meta : List (Option String × String))
    (targets : List (String × String)) (T nid : String) :
    (l : NodeList) → (∀ x ∈ l.toList, childrenAllRefs x = true) →
    ∀ p, ((traverse_nodes meta targets l p).filter
          (fun q : String × Entry => q.1 == T && q.2.node_id == nid)).length
        = (l.toList.map (fun x =>
            if nodeIdOf x == nid then
              (if indirectMatches meta x T then 1 else 0) + directMatchCount targets x T
            else 0)).sum
  | .nil => by
      intro _ p
      simp [traverse_nodes.eq_1, NodeList.toList]
  | .cons (.ref s) rest => fun hflat p => by
      rw [traverse_nodes.eq_2,
        traverse_count_flat meta targets T nid rest
          (fun x hx => hflat x (List.mem_cons_of_mem _ hx)) p]
      simp [NodeList.toList, nodeIdOf, indirectMatches, directMatchCount]
  | .cons (.doc i u pid nm pr st ch) rest => fun hflat p => by
      have hdoc : childrenAllRefs (.doc i u pid nm pr st ch) = true :=
        hflat _ (List.mem_cons_self _ _)
      have hrest : ∀ x ∈ rest.toList, childrenAllRefs x = true :=
        fun x hx => hflat x (List.mem_cons_of_mem _ hx)
      have ihrest := traverse_count_flat meta targets T nid rest hrest p
      rw [traverse_nodes.eq_3]
      by_cases htd : (pr.docType == some "tagDef") = true
      · rw [if_pos htd, ihrest]
        have h1 : indirectMatches meta (Node.doc i u pid nm pr st ch) T = false := by
          simp [indirectMatches, htd]
        have h2 : directMatchCount targets (Node.doc i u pid nm pr st ch) T = 0 := by
          simp [directMatchCount, htd]
        simp [NodeList.toList, h1, h2]
      · rw [if_neg htd]
        have hchrefs : ∀ c ∈ ch.toList, isRefItem c = true := by
          intro c hc
          simp only [childrenAllRefs, List.all_eq_true] at hdoc
          exact hdoc c hc
        have hchnil : ∀ q, traverse_nodes meta targets ch q = [] :=
          fun q => traverse_refs_nil meta targets ch hchrefs q
        simp only [List.filter_append, List.length_append, hchnil, ite_self,
          List.filter_nil, List.length_nil, Nat.add_zero, Nat.zero_add]
        rw [indirect_filter_length meta T nid _ pr.metaNodeId (pr.name.getD "")]
        rw [direct_filter_length targets T nid _ (st.getD []) (pr.name.getD "")]
        rw [ihrest]
        simp only [NodeList.toList, List.map_cons, List.sum_cons]
        have htd2 : (pr.docType == some "tagDef") = false := by
          simpa using htd
        have him : indirectMatches meta (Node.doc i u pid nm pr st ch) T
            = ((match pr.metaNodeId with
                | none => false
                | some m => !(m == "") && (List.lookup (some m) meta == some T))
              && !(strStartsWith (pr.name.getD "") "Field defaults for")) := by
          simp [indirectMatches, htd2]
        have hdmc : directMatchCount targets (Node.doc i u pid nm pr st ch) T
            = (if strStartsWith (pr.name.getD "") "Field defaults for" = true then 0
               else ((st.getD []).map (fun tag =>
                 (targets.filter (fun tgt =>
                   (tag.id.getD (tag.uid.getD "") == tgt.2
                     || strToLower (tag.name.getD "") == strToLower tgt.1)
                   && tgt.1 == T)).length)).sum) := by
          simp [directMatchCount, htd2]
        rw [him, hdmc]
        simp only [nodeIdOf]
        dsimp only
        rw [head_count_eq]

theorem metaGrandLoop_ok (targets : List (String × String)) (did : Option String) :
    (l : List Node) → ∀ acc, (∀ g ∈ l, isRefItem g = true) →
      ∃ m, metaGrandLoop targets did acc l = .ok m
  | [] => fun acc _ => ⟨acc, rfl⟩
  | .ref gid :: rest => fun acc h => by
      have hrest : ∀ g ∈ rest, isRefItem g = true :=
        fun g hg => h g (List.mem_cons_of_mem _ hg)
      have heq : metaGrandLoop targets did acc (.ref gid :: rest)
          = if (targets.map (fun p => p.2)).contains gid then
              match targets.find? (fun p => p.2 == gid) with
              | some p => metaGrandLoop targets did (upsertMeta acc did p.1) rest
              | none => metaGrandLoop targets did acc rest
            else metaGrandLoop targets did acc rest := rfl
      by_cases hc : ((targets.map (fun p => p.2)).contains gid) = true
      · rcases hf : targets.find? (fun p => p.2 == gid) with _ | p
        · obtain ⟨m, hm⟩ := metaGrandLoop_ok targets did rest acc hrest
          refine ⟨m, ?_⟩
          rw [heq, if_pos hc, hf]
          exact hm
        · obtain ⟨m, hm⟩ :=
            metaGrandLoop_ok targets did rest (upsertMeta acc did p.1) hrest
          refine ⟨m, ?_⟩
          rw [heq, if_pos hc, hf]
          exact hm
      · obtain ⟨m, hm⟩ := metaGrandLoop_ok targets did rest acc hrest
        refine ⟨m, ?_⟩
        rw [heq, if_neg hc]
        exact hm
  | .doc i u pid nm pr st ch :: rest => fun acc h => by
      have := h (.doc i u pid nm pr st ch) (List.mem_cons_self _ _)
      simp [isRefItem] at this

theorem metaChildLoop_ok (docs : List Node) (targets : List (String × String))
    (did : Option String) (hflat : ∀ x ∈ docs, childrenAllRefs x = true) :
    (l : List Node) → ∀ acc, (∀ c ∈ l, isRefItem c = true) →
      ∃ m, metaChildLoop docs targets did acc l = .ok m
  | [] => fun acc _ => ⟨acc, rfl⟩
  | .ref cid :: rest => fun acc h => by
      have hrest : ∀ c ∈ rest, isRefItem c = true :=
        fun c hc => h c (List.mem_cons_of_mem _ hc)
      rcases hlk : doc_lookup_get docs cid with _ | found
      · obtain ⟨m, hm⟩ := metaChildLoop_ok docs targets did hflat rest acc hrest
        refine ⟨m, ?_⟩
        rw [metaChildLoop.eq_3, hlk]
        exact hm
      · cases found with
        | ref fid =>
            obtain ⟨m, hm⟩ := metaChildLoop_ok docs targets did hflat rest acc hrest
            refine ⟨m, ?_⟩
            rw [metaChildLoop.eq_3, hlk]
            exact hm
        | doc fi fu fpid fnm fpr fst fch =>
            have hmem : Node.doc fi fu fpid fnm fpr fst fch ∈ docs := by
              simp only [doc_lookup_get] at hlk
              obtain ⟨hne, hx⟩ := List.mem_getLast?_eq_getLast (Option.mem_def.mpr hlk)
              rw [hx]
              exact List.mem_of_mem_filter (List.getLast_mem hne)
            have hfch : ∀ g ∈ fch.toList, isRefItem g = true := by
              have := hflat _ hmem
              simp only [childrenAllRefs, List.all_eq_true] at this
              exact this
            by_cases hemp : fch.isEmpty = true
            · obtain ⟨m, hm⟩ := metaChildLoop_ok docs targets did hflat rest acc hrest
              refine ⟨m, ?_⟩
              rw [metaChildLoop.eq_3, hlk]
              show (if fch.isEmpty = true then metaChildLoop docs targets did acc rest
                  else (metaGrandLoop targets did acc fch.toList).bind
                    (fun acc2 => metaChildLoop docs targets did acc2 rest)) = Except.ok m
              rw [if_pos hemp]
              exact hm
            · obtain ⟨m1, hm1⟩ := metaGrandLoop_ok targets did fch.toList acc hfch
              obtain ⟨m, hm⟩ := metaChildLoop_ok docs targets did hflat rest m1 hrest
              refine ⟨m, ?_⟩
              rw [metaChildLoop.eq_3, hlk]
              show (if fch.isEmpty = true then metaChildLoop docs targets did acc rest
                  else (metaGrandLoop targets did acc fch.toList).bind
                    (fun acc2 => metaChildLoop docs targets did acc2 rest)) = Except.ok m
              rw [if_neg hemp, hm1]
              exact hm
  | .doc i u pid nm pr st ch :: rest => fun acc h => by
      have := h (.doc i u pid nm pr st ch) (List.mem_cons_self _ _)
      simp [isRefItem] at this

theorem build_meta_map_ok (docs : List Node) (targets : List (String × String))
    (hdict : docsAllDicts docs = true)
    (hflat : ∀ x ∈ docs, childrenAllRefs x = true) :
    ∃ meta, build_meta_map docs targets = .ok meta := by
  have main : ∀ (l : List Node),
      (∀ x ∈ l, isRefItem x = false) →
      (∀ x ∈ l, childrenAllRefs x = true) → ∀ acc,
      ∃ m, l.foldlM
        (fun acc n =>
          match n with
          | .ref _ => Except.error "AttributeError: str object has no attribute get"
          | .doc i _ _ _ _ _ ch =>
              if ch.isEmpty then Except.ok acc
              else metaChildLoop docs targets i acc ch.toList)
        acc = .ok m := by
    intro l
    induction l with
    | nil => intro _ _ acc; exact ⟨acc, rfl⟩
    | cons x rest ih =>
        intro hd hf acc
        have hdrest : ∀ y ∈ rest, isRefItem y = false :=
          fun y hy => hd y (List.mem_cons_of_mem _ hy)
        have hfrest : ∀ y ∈ rest, childrenAllRefs y = true :=
          fun y hy => hf y (List.mem_cons_of_mem _ hy)
        cases x with
        | ref xid =>
            have := hd (.ref xid) (List.mem_cons_self _ _)
            simp [isRefItem] at this
        | doc xi xu xpid xnm xpr xst xch =>
            have hxflat : childrenAllRefs (.doc xi xu xpid xnm xpr xst xch) = true :=
              hf _ (List.mem_cons_self _ _)
            have hxch : ∀ g ∈ xch.toList, isRefItem g = true := by
              simp only [childrenAllRefs, List.all_eq_true] at hxflat
              exact hxflat
            by_cases hemp : xch.isEmpty = true
            · obtain ⟨m, hm⟩ := ih hdrest hfrest acc
              refine ⟨m, ?_⟩
              rw [List.foldlM_cons]
              show (if xch.isEmpty then Except.ok acc
                  else metaChildLoop docs targets xi acc xch.toList) >>= _ = Except.ok m
              rw [if_pos hemp]
              exact hm
            · obtain ⟨m1, hm1⟩ :=
                metaChildLoop_ok docs targets xi hflat xch.toList acc hxch
              obtain ⟨m, hm⟩ := ih hdrest hfrest m1
              refine ⟨m, ?_⟩
              rw [List.foldlM_cons]
              show (if xch.isEmpty then Except.ok acc
                  else metaChildLoop docs targets xi acc xch.toList) >>= _ = Except.ok m
              rw [if_neg hemp, hm1]
              exact hm
  have hd : ∀ x ∈ docs, isRefItem x = false := by
    intro x hx
    simp only [docsAllDicts, List.all_eq_true] at hdict
    have := hdict x hx
    cases x with
    | ref xid => simp at this
    | doc xi xu xpid xnm xpr xst xch => simp [isRefItem]
  exact main docs hd hflat []

theorem resultFor_filter_length (pairs : List (String × Entry)) (T nid : String) :
    ((resultFor pairs T).filter (fun e => e.node_id == nid)).length
      = (pairs.filter (fun q : String × Entry => q.1 == T && q.2.node_id == nid)).length := by
  induction pairs with
  | nil => rfl
  | cons q rest ih =>
      simp only [resultFor] at ih ⊢
      by_cases hT : (q.1 == T) = true
      · by_cases hn : (q.2.node_id == nid) = true
        · simp [List.filter_cons, hT, hn, ih]
        · simp [List.filter_cons, hT, hn, ih]
      · simp [List.filter_cons, hT, ih]

end TanaImporter

/-- C1 counterexample: in the meta-hop graph, node `n` is reachable via
the indirect meta-node hop AND matches the direct `supertags` strategy;
it appears TWICE in the `Project` result list — the two strategies'
appends are concatenated, not unioned without duplicates — refuting "it
appears in that tag's result list exactly once". -/
theorem meta_and_direct_both_append :
    (TanaImporter.extract_nodes_by_supertag metaHopData keytagsProjectOnly).map
        (fun ps => (TanaImporter.resultFor ps "Project").map (fun e => e.node_id))
      = .ok ["n", "n"]
    ∧ (TanaImporter.extract_nodes_by_supertag metaHopData keytagsProjectOnly).map
        (fun ps => ((TanaImporter.resultFor ps "Project").map (fun e => e.node_id)
            == ["n"] : Bool))
      = .ok false :=
  ⟨rfl, rfl⟩

/-- C1 (amended): on a flat export graph, the two detection strategies'
appends are concatenated per node, not unioned: a document occurring once
in the graph appears in tag `T`'s result list once if the indirect
meta-node hop matches it, plus once per matching (supertags entry,
target) pair of the direct strategy.  In particular it appears exactly
once when only the indirect strategy matches, and more than once when
both do. -/
theorem extract_appends_per_strategy
    (data : TanaData) (kt : KeyTags) (T : String) (d : Node) (pre post : List Node)
    (hdocs : (TanaImporter.importer_docs data).toList = pre ++ d :: post)
    (hdict : TanaImporter.docsAllDicts ((TanaImporter.importer_docs data).toList) = true)
    (hflat : ∀ x ∈ (TanaImporter.importer_docs data).toList,
      TanaImporter.childrenAllRefs x = true)
    (hother : ∀ x ∈ pre ++ post,
      TanaImporter.nodeIdOf x ≠ TanaImporter.nodeIdOf d) :
    ∃ meta pairs,
      TanaImporter.build_meta_map ((TanaImporter.importer_docs data).toList)
          (TanaImporter.target_supertags kt) = .ok meta
      ∧ TanaImporter.extract_nodes_by_supertag data kt = .ok pairs
      ∧ ((TanaImporter.resultFor pairs T).filter
            (fun e => e.node_id == TanaImporter.nodeIdOf d)).length
          = (if TanaImporter.indirectMatches meta d T then 1 else 0)
            + TanaImporter.directMatchCount
                (TanaImporter.target_supertags kt) d T := by
  obtain ⟨meta, hmeta⟩ :=
    TanaImporter.build_meta_map_ok ((TanaImporter.importer_docs data).toList)
      (TanaImporter.target_supertags kt) hdict hflat
  have hex : TanaImporter.extract_nodes_by_supertag data kt
      = .ok (TanaImporter.traverse_nodes meta (TanaImporter.target_supertags kt)
          (TanaImporter.importer_docs data) none) := by
    simp [TanaImporter.extract_nodes_by_supertag, hdict, hmeta, Except.map]
  refine ⟨meta, _, hmeta, hex, ?_⟩
  rw [TanaImporter.resultFor_filter_length]
  rw [TanaImporter.traverse_count_flat meta (TanaImporter.target_supertags kt) T
    (TanaImporter.nodeIdOf d) (TanaImporter.importer_docs data) hflat none]
  rw [hdocs]
  simp only [List.map_append, List.sum_append, List.map_cons, List.sum_cons]
  have hpre : (pre.map (fun x =>
      if TanaImporter.nodeIdOf x == TanaImporter.nodeIdOf d then
        (if TanaImporter.indirectMatches meta x T then 1 else 0)
          + TanaImporter.directMatchCount (TanaImporter.target_supertags kt) x T
      else 0)).sum = 0 := by
    apply List.sum_eq_zero
    intro y hy
    rcases List.mem_map.mp hy with ⟨x, hx, rfl⟩
    have hne : (TanaImporter.nodeIdOf x == TanaImporter.nodeIdOf d) = false :=
      beq_eq_false_iff_ne.mpr (hother x (List.mem_append_left _ hx))
    simp [hne]
  have hpost : (post.map (fun x =>
      if TanaImporter.nodeIdOf x == TanaImporter.nodeIdOf d then
        (if TanaImporter.indirectMatches meta x T then 1 else 0)
          + TanaImporter.directMatchCount (TanaImporter.target_supertags kt) x T
      else 0)).sum = 0 := by
    apply List.sum_eq_zero
    intro y hy
    rcases List.mem_map.mp hy with ⟨x, hx, rfl⟩
    have hne : (TanaImporter.nodeIdOf x == TanaImporter.nodeIdOf d) = false :=
      beq_eq_false_iff_ne.mpr (hother x (List.mem_append_right _ hx))
    simp [hne]
  rw [hpre, hpost]
  simp

/-- Witness for C1 (amended): in a graph whose node `n2` is matched only
by the indirect meta hop, the count formula applies and the node appears
exactly once in the `Project` result list. -/
theorem extract_appends_per_strategy_witness :
    (∃ meta pairs,
      TanaImporter.build_meta_map ((TanaImporter.importer_docs indirectOnlyData).toList)
          (TanaImporter.target_supertags keytagsProjectOnly) = .ok meta
      ∧ TanaImporter.extract_nodes_by_supertag indirectOnlyData keytagsProjectOnly
          = .ok pairs
      ∧ ((TanaImporter.resultFor pairs "Project").filter
            (fun e => e.node_id == TanaImporter.nodeIdOf indirectOnlyNode)).length
          = (if TanaImporter.indirectMatches meta indirectOnlyNode "Project" then 1 else 0)
            + TanaImporter.directMatchCount
                (TanaImporter.target_supertags keytagsProjectOnly)
                indirectOnlyNode "Project")
    ∧ (TanaImporter.extract_nodes_by_supertag indirectOnlyData keytagsProjectOnly).map
        (fun ps => (TanaImporter.resultFor ps "Project").map (fun e => e.node_id))
      = .ok ["n2"] :=
  ⟨extract_appends_per_strategy indirectOnlyData keytagsProjectOnly "Project"
      indirectOnlyNode indirectOnlyPre [] rfl rfl (by decide) (by decide),
   rfl⟩

/-- C4 counterexample: on the 3-document scenario the importer returns
`nodes_processed = 2`, not `1` — `create_supertag_directories` counts the
per-tag index file `project.md` in `total_files_created` alongside the
node file `A_id.md`. -/
theorem import_scenario_nodes_processed_not_one :
    (TanaImporter.import_file scenarioData keytagsProjectOnly "NOW" "FOOTER").map
        (fun r => r.nodes_processed) = .ok 2
    ∧ (TanaImporter.import_file scenarioData keytagsProjectOnly "NOW" "FOOTER").map
        (fun r => (r.nodes_processed == 1 : Bool)) = .ok false :=
  ⟨rfl, rfl⟩

/-- C4 (amended): the 3-document scenario import succeeds with
`nodes_processed = 2` (the node file plus the per-tag index file),
`directories_created = 1`, a `project/` directory containing `A_id.md`
and `project.md`, and a `SuperTags.md` row listing `Project` with usage
count 1. -/
theorem import_scenario_results :
    (TanaImporter.import_file scenarioData keytagsProjectOnly "NOW" "FOOTER").map
        (fun r => (r.success, r.nodes_processed, r.directories_created))
      = .ok (true, 2, 1)
    ∧ (TanaImporter.import_file scenarioData keytagsProjectOnly "NOW" "FOOTER").map
        (fun r => r.files)
      = .ok [⟨"project", "A_id.md"⟩, ⟨"project", "project.md"⟩]
    ∧ (TanaImporter.import_file scenarioData keytagsProjectOnly "NOW" "FOOTER").map
        (fun r => (r.supertags_md.contains
            "| Project | `t1` [(tana)](https://app.tana.inc?nodeid=t1) | 1 |" : Bool))
      = .ok true :=
  ⟨rfl, rfl, rfl⟩

/-- C3: `import_file` compares the `user_defined` KEYS (tag node ids)
against the result dict KEYS (tag names), so with registry
`{t1 -> Project, t2 -> Task}` and a graph where `Project` matches one
node and `Task` matches none, the single WARNING issue claims "2 target
supertags had no nodes" and lists BOTH ids — including `t1`, whose tag
did have a node — instead of reporting only the one missing tag. -/
theorem import_missing_tags_uses_ids :
    (TanaImporter.import_file scenarioData keytagsProjectTask "NOW" "FOOTER").map
        (fun r => r.issues)
      = .ok [{ severity := "WARNING", message := "2 target supertags had no nodes",
               details := "Missing: t1, t2" }]
    ∧ (TanaImporter.import_file scenarioData keytagsProjectTask "NOW" "FOOTER").map
        (fun r => (r.success,
          (TanaImporter.resultFor r.nodes_by_supertag "Project").length,
          (TanaImporter.resultFor r.nodes_by_supertag "Task").length))
      = .ok (true, 1, 0) :=
  ⟨rfl, rfl⟩

/-- C8 counterexample: the scaffold filter only consults `props.name`, so
a matched node whose display name lives in the TOP-LEVEL `name` field and
begins with "Field defaults for" is NOT excluded: it lands in the
`Project` result list (recorded as `Untitled`). -/
theorem field_defaults_top_level_name_included :
    (TanaImporter.extract_nodes_by_supertag fieldDefaultsData keytagsProjectOnly).map
        (fun ps => (TanaImporter.resultFor ps "Project").map
          (fun e => (e.node_id, e.name)))
      = .ok [("fd", "Untitled")]
    ∧ strStartsWith "Field defaults for Everything tagged" "Field defaults for" = true :=
  ⟨rfl, rfl⟩

/-- Helper for C8: every pair emitted by `traverse_nodes` — under either
detection strategy, at any nesting depth — records a name that does not
begin with "Field defaults for" (the guard tests `props.name`; an empty
`props.name` is recorded as `"Untitled"`). -/
theorem traverse_nodes_never_field_defaults (meta : List (Option String × String))
    (targets : List (String × String)) :
    ∀ (l : NodeList) (path : Option String) (T : String) (e : Entry),
      (T, e) ∈ TanaImporter.traverse_nodes meta targets l path →
      strStartsWith e.name "Field defaults for" = false := by
  intro l path
  induction l, path using TanaImporter.traverse_nodes.induct meta targets with
  | case1 path =>
      intro T e h
      rw [TanaImporter.traverse_nodes.eq_1] at h
      simp at h
  | case2 s rest path ih =>
      intro T e h
      rw [TanaImporter.traverse_nodes.eq_2] at h
      exact ih T e h
  | case3 i u pid nm pr st ch rest path hguard ih =>
      intro T e h
      rw [TanaImporter.traverse_nodes.eq_3, if_pos hguard] at h
      exact ih T e h
  | case4 i u pid nm pr st ch rest path hguard ih2 ih1 =>
      intro T e h
      rw [TanaImporter.traverse_nodes.eq_3, if_neg hguard] at h
      simp only [List.mem_append] at h
      have hent : ∀ nn : String, ¬ strStartsWith nn "Field defaults for" = true →
          strStartsWith (if (nn == "") = true then "Untitled" else nn)
            "Field defaults for" = false := by
        intro nn hnn
        by_cases hz : (nn == "") = true
        · rw [if_pos hz]; rfl
        · rw [if_neg hz]; exact (Bool.not_eq_true _).mp hnn
      rcases h with ((h | h) | h) | h
      · rcases hmn : pr.metaNodeId with _ | m
        · simp only [hmn] at h
          simp at h
        · simp only [hmn] at h
          split at h
          · simp at h
          · split at h
            · simp at h
            · split at h
              · simp at h
              · next hfd =>
                  simp only [List.mem_singleton, Prod.mk.injEq] at h
                  rw [h.2]
                  exact hent _ hfd
      · simp only [List.mem_flatMap] at h
        rcases h with ⟨tag, _htag, h⟩
        rcases h with ⟨tgt, _htgt, h⟩
        split at h
        · split at h
          · simp at h
          · next hfd =>
              simp only [List.mem_singleton, Prod.mk.injEq] at h
              rw [h.2]
              exact hent _ hfd
        · simp at h
      · split at h
        · simp at h
        · exact ih2 T e h
      · exact ih1 T e h

/-- C8 (amended): under both strategies and at any nesting depth, a
matched node whose `props.name` begins with "Field defaults for" is
excluded from every tag's result list — every recorded entry name fails
that test.  The filter consults only `props.name`; a display name carried
solely in the top-level `name` field is not consulted (see the
counterexample), so only the props layout is filtered. -/
theorem extract_filters_props_field_defaults (data : TanaData) (kt : KeyTags) :
    ∀ pairs, TanaImporter.extract_nodes_by_supertag data kt = .ok pairs →
      ∀ T e, (T, e) ∈ pairs → strStartsWith e.name "Field defaults for" = false := by
  intro pairs hok T e he
  simp only [TanaImporter.extract_nodes_by_supertag] at hok
  split at hok
  · simp at hok
  · match hb : TanaImporter.build_meta_map (TanaImporter.importer_docs data).toList
        (TanaImporter.target_supertags kt) with
    | .error s => rw [hb] at hok; simp [Except.map] at hok
    | .ok meta =>
        rw [hb] at hok
        simp only [Except.map] at hok
        cases hok
        exact traverse_nodes_never_field_defaults meta
          (TanaImporter.target_supertags kt) (TanaImporter.importer_docs data) none T e he

/-- Witness for C8 (amended) on the meta-hop graph: the recorded entry
name "Note" does not start with the scaffold phrase. -/
theorem extract_filters_props_field_defaults_witness :
    strStartsWith "Note" "Field defaults for" = false :=
  extract_filters_props_field_defaults metaHopData keytagsProjectOnly
    [("Project", ⟨"Note", "n", "", none, .nil, none⟩),
     ("Project", ⟨"Note", "n", "", none, .nil, none⟩)]
    rfl "Project" ⟨"Note", "n", "", none, .nil, none⟩ (List.Mem.head _)

/-- C9: a document whose `props._docType` is `'tagDef'` is skipped
entirely by the supertag traversal: whatever its `_metaNodeId`,
`supertags` array or embedded children, the traversal's output is exactly
the output for the remaining items — the definition node contributes no
entry to any tag's list and its nested children are never descended
into. -/
theorem tagdef_skipped_entirely
    (meta : List (Option String × String)) (targets : List (String × String))
    (i u pid nm : Option String) (pr : Props) (st : Option (List TagRef))
    (ch rest : NodeList) (path : Option String)
    (h : pr.docType = some "tagDef") :
    TanaImporter.traverse_nodes meta targets
        (.cons (.doc i u pid nm pr st ch) rest) path
      = TanaImporter.traverse_nodes meta targets rest path := by
  have hb : (pr.docType == some "tagDef") = true := by rw [h]; rfl
  rw [TanaImporter.traverse_nodes.eq_3, if_pos hb]

/-- Witness for C9: a tag definition whose nested child would match the
target tag both ways still contributes nothing — the traversal returns
the empty result. -/
theorem tagdef_skipped_entirely_witness :
    tagDefProps.docType = some "tagDef"
    ∧ TanaImporter.traverse_nodes [(some "m", "Project")] [("Project", "t1")]
        (.cons (.doc (some "t1") none none none tagDefProps none tagDefChildren) .nil)
        none
      = [] :=
  ⟨rfl,
   (tagdef_skipped_entirely [(some "m", "Project")] [("Project", "t1")]
      (some "t1") none none none tagDefProps none tagDefChildren .nil none rfl).trans rfl⟩

/-- C5: for every graph and node id `x`, the children lookup returns
exactly the ids of (indexed) documents whose `parentId` equals `x` — the
result is a permutation of that scan, hence membership and multiplicity
agree — and the returned list is non-decreasing in the `created` sort key
(missing or falsy `created` treated as 0); `TanaOutlineGenerator`'s copy
of the lookup returns the same list. -/
theorem get_children_spec (docs : List PDoc) (x : String) :
    List.Perm (TanaParser.get_children docs x)
      (((TanaParser.buildDocs docs).filter
          (fun d => d.parentId == some x)).map (fun d => d.id))
    ∧ List.Pairwise (fun a b => TanaParser.sort_key docs a ≤ TanaParser.sort_key docs b)
        (TanaParser.get_children docs x)
    ∧ (∀ cid, cid ∈ TanaParser.get_children docs x ↔
        ∃ d ∈ TanaParser.buildDocs docs, d.id = cid ∧ d.parentId = some x)
    ∧ TanaOutlineGenerator.get_children docs x = TanaParser.get_children docs x := by
  haveI ht : IsTotal String (fun a b => TanaParser.sort_key docs a ≤ TanaParser.sort_key docs b) :=
    ⟨fun a b => le_total _ _⟩
  haveI htr : IsTrans String (fun a b => TanaParser.sort_key docs a ≤ TanaParser.sort_key docs b) :=
    ⟨fun a b c hab hbc => le_trans hab hbc⟩
  refine ⟨List.perm_insertionSort _ _, List.sorted_insertionSort _ _, ?_, rfl⟩
  intro cid
  constructor
  · intro hmem
    have hmem' := (List.perm_insertionSort
      (fun a b => TanaParser.sort_key docs a ≤ TanaParser.sort_key docs b) _).mem_iff.mp hmem
    rcases List.mem_map.mp hmem' with ⟨d, hd, hid⟩
    rcases List.mem_filter.mp hd with ⟨hdocs, hpar⟩
    exact ⟨d, hdocs, hid, by simpa using hpar⟩
  · rintro ⟨d, hdocs, hid, hpar⟩
    apply (List.perm_insertionSort
      (fun a b => TanaParser.sort_key docs a ≤ TanaParser.sort_key docs b) _).mem_iff.mpr
    exact List.mem_map.mpr ⟨d, List.mem_filter.mpr ⟨hdocs, by simp [hpar]⟩, hid⟩

/-- Witness for C5 at a concrete graph: two children of `"r"` created out
of order come back sorted by timestamp, and an untimed child sorts first. -/
theorem get_children_spec_witness :
    TanaParser.get_children
      [⟨"r", none, {}⟩,
       ⟨"b", some "r", { created := some 20 }⟩,
       ⟨"c", some "r", { created := some 10 }⟩,
       ⟨"u", some "r", {}⟩] "r" = ["u", "c", "b"]
    ∧ (List.Pairwise
        (fun a b => TanaParser.sort_key
            [⟨"r", none, {}⟩,
             ⟨"b", some "r", { created := some 20 }⟩,
             ⟨"c", some "r", { created := some 10 }⟩,
             ⟨"u", some "r", {}⟩] a ≤ TanaParser.sort_key
            [⟨"r", none, {}⟩,
             ⟨"b", some "r", { created := some 20 }⟩,
             ⟨"c", some "r", { created := some 10 }⟩,
             ⟨"u", some "r", {}⟩] b)
        (TanaParser.get_children
          [⟨"r", none, {}⟩,
           ⟨"b", some "r", { created := some 20 }⟩,
           ⟨"c", some "r", { created := some 10 }⟩,
           ⟨"u", some "r", {}⟩] "r")) :=
  ⟨by decide, (get_children_spec
      [⟨"r", none, {}⟩,
       ⟨"b", some "r", { created := some 20 }⟩,
       ⟨"c", some "r", { created := some 10 }⟩,
       ⟨"u", some "r", {}⟩] "r").2.1⟩

/-- C6: appending content `c` to a node whose extracted existing content
is a non-empty string `x` yields content `x ++ "\n\n" ++ c` for
`position="end"` and `c ++ "\n\n" ++ x` for `position="start"` (and the
node's `content` key is set to exactly that). -/
theorem modify_node_content_start_end (n : TifNode) (c x : String) (now : Int)
    (hx : TanaJSONParser.extract_content n = x) (hne : x ≠ "") :
    (TanaJSONParser.modify_node_content n c "end" none now).content
        = some (x ++ "\n\n" ++ c)
    ∧ (TanaJSONParser.modify_node_content n c "start" none now).content
        = some (c ++ "\n\n" ++ x) := by
  have hb : (x == "") = false := beq_eq_false_iff_ne.mpr hne
  cases n with
  | mk u nm ty ct pid st tg fl ch cr ed =>
      constructor
      · simp [TanaJSONParser.modify_node_content, TanaJSONParser.setContentEdited,
          TifNode.content, hx, hb, String.append_assoc]
      · simp [TanaJSONParser.modify_node_content, TanaJSONParser.setContentEdited,
          TifNode.content, hx, hb, String.append_assoc]

/-- Witness for C6: a node whose extracted content is `"X"`: appending
`"C"` at the end yields `"X\n\nC"`, at the start `"C\n\nX"`. -/
theorem modify_node_content_start_end_witness :
    (TanaJSONParser.extract_content witnessTifNode = "X" ∧ "X" ≠ "")
    ∧ (TanaJSONParser.modify_node_content witnessTifNode "C" "end" none 0).content
        = some "X\n\nC"
    ∧ (TanaJSONParser.modify_node_content witnessTifNode "C" "start" none 0).content
        = some "C\n\nX" :=
  ⟨⟨rfl, by decide⟩,
   (modify_node_content_start_end witnessTifNode "C" "X" 0 rfl (by decide)).1.trans rfl,
   (modify_node_content_start_end witnessTifNode "C" "X" 0 rfl (by decide)).2.trans rfl⟩

/-- C7: `append_to_node` never performs the mutating source-file write
when the pre-modification backup fails (it returns a structured
`{success: false, error}` with no `fileWrite` effect), and likewise when
the node id is not found or no data is available (no effect at all);
every such failure is a returned value, not an exception. -/
theorem append_to_node_aborts (raw : Option TanaJSONParser.RawData)
    (sourceFile : Option String) (fileExists backupOk saveOk : Bool)
    (node_id content position : String) (sectionName : Option String) (now : Int) :
    (backupOk = false →
      (TanaJSONParser.append_to_node raw sourceFile fileExists backupOk saveOk
          node_id content position sectionName now).1.success = false
      ∧ TanaJSONParser.Effect.fileWrite ∉
          (TanaJSONParser.append_to_node raw sourceFile fileExists backupOk saveOk
            node_id content position sectionName now).2)
    ∧ (∀ rd, raw = some rd →
        TanaJSONParser.find_node_by_id node_id rd = none →
        (TanaJSONParser.append_to_node raw sourceFile fileExists backupOk saveOk
            node_id content position sectionName now).1.success = false
        ∧ (TanaJSONParser.append_to_node raw sourceFile fileExists backupOk saveOk
            node_id content position sectionName now).2 = [])
    ∧ (raw = none →
        (TanaJSONParser.append_to_node raw sourceFile fileExists backupOk saveOk
            node_id content position sectionName now).1.success = false
        ∧ (TanaJSONParser.append_to_node raw sourceFile fileExists backupOk saveOk
            node_id content position sectionName now).2 = []) := by
  refine ⟨?_, ?_, ?_⟩
  · intro hb
    subst hb
    rcases raw with _ | rd
    · simp [TanaJSONParser.append_to_node]
    · rcases hf : TanaJSONParser.find_node_by_id node_id rd with _ | nd
      · simp [TanaJSONParser.append_to_node, hf]
      · simp [TanaJSONParser.append_to_node, hf, TanaJSONParser.create_node_backup]
  · intro rd hr hf
    subst hr
    simp [TanaJSONParser.append_to_node, hf]
  · intro hr
    subst hr
    simp [TanaJSONParser.append_to_node]

/-- Witness for C7 on a one-node document: with a failing backup the call
fails and no source-file write happens; with an unknown node id the call
fails with no effects at all. -/
theorem append_to_node_aborts_witness :
    ((TanaJSONParser.append_to_node
        (some (.withNodes (.cons editNode .nil))) (some "f.json")
        true false true "n1" "C" "end" none 0).1.success = false
      ∧ TanaJSONParser.Effect.fileWrite ∉
          (TanaJSONParser.append_to_node
            (some (.withNodes (.cons editNode .nil))) (some "f.json")
            true false true "n1" "C" "end" none 0).2)
    ∧ ((TanaJSONParser.append_to_node
        (some (.withNodes (.cons editNode .nil))) (some "f.json")
        true true true "zz" "C" "end" none 0).1.success = false
      ∧ (TanaJSONParser.append_to_node
        (some (.withNodes (.cons editNode .nil))) (some "f.json")
        true true true "zz" "C" "end" none 0).2 = []) :=
  ⟨(append_to_node_aborts (some (.withNodes (.cons editNode .nil))) (some "f.json")
      true false true "n1" "C" "end" none 0).1 rfl,
   (append_to_node_aborts (some (.withNodes (.cons editNode .nil))) (some "f.json")
      true true true "zz" "C" "end" none 0).2.1
      (.withNodes (.cons editNode .nil)) rfl rfl⟩

end TanaChat
